import Mathlib

/-!
Shallow embedding of the sprite-sheet segmentation core of
`src/sprite_extractor.py` (class `SpriteExtractor`), together with proofs
about the data model, the detection pipeline, grid inference, view
classification and export.

Conventions of the embedding:
* numpy arrays become nested lists of `Nat` (pixel values 0..255);
  a grayscale image decoded by `cv2.imread` is a 2-D array, a color image
  a 3-D array, captured by `PyImage`;
* `cv2` primitives (threshold, morphology with 3x3 kernel, boundingRect,
  BGR-to-gray) are translated at the pixel level with OpenCV's documented
  semantics: erosion treats out-of-bounds as foreground and dilation as
  background (OpenCV constant-border defaults), `cv2.threshold` compares
  with strict `>`, `BGR2GRAY` uses the fixed-point coefficients
  (4899*R + 9617*G + 1868*B + 8192) >> 14;
* `cv2.findContours(RETR_EXTERNAL)` plus `boundingRect` is modelled as the
  bounding boxes of the 8-connected components of the mask (an external
  contour passes through the extreme pixels of its component, so the boxes
  agree; RETR_EXTERNAL drops components nested inside holes of others,
  which none of the concrete inputs used below exhibit, and the universal
  theorems below hold for all components, hence for any subset);
* Python exceptions become `Except String`; a mutating method returns the
  post-state (Python mutations performed before a raise are kept, as in
  `detect_sprites`, which clears `self.sprites` before it can raise);
* Python `round` (banker's rounding) and float means are translated to
  exact rational arithmetic; for the quantities involved (multiples of
  1/50 and means of at most a few hundred 8-bit values) the float results
  are exactly the rational ones, so the translation is faithful.
-/

namespace SpriteExt

/-- Pixel: list of channel values (length 3 for BGR, 4 for BGRA). -/
abbrev Pix := List Nat

/-- Grayscale 2-D array, rows of values. -/
abbrev Img2 := List (List Nat)

/-- Color 3-D array, rows of pixels. -/
abbrev Img3 := List (List Pix)

/-- An in-memory decoded image as returned by `cv2.imread(..., IMREAD_UNCHANGED)`:
either a 2-D grayscale array or a 3-D color array. -/
inductive PyImage where
  | gray2d (px : Img2)
  | color (px : Img3)
deriving DecidableEq, Repr

/-- Height (`shape[0]`) of a 3-D array. -/
def Img3.height (px : Img3) : Nat := px.length

/-- Width (`shape[1]`) of a 3-D array (length of the first row). -/
def Img3.width (px : Img3) : Nat := (px.headD []).length

/-- Channel count (`shape[2]`) of a 3-D array. -/
def Img3.chans (px : Img3) : Nat := ((px.headD []).headD []).length

/-- Height of a `PyImage`. -/
def PyImage.height : PyImage → Nat
  | .gray2d g => g.length
  | .color px => px.length

/-- Width of a `PyImage`. -/
def PyImage.width : PyImage → Nat
  | .gray2d g => (g.headD []).length
  | .color px => Img3.width px

/-- The `Sprite` dataclass of `sprite_extractor.py`: bbox `(x, y, w, h)`,
an owned crop of the source pixels, the detection index, and the view label
(default `"unknown"`).  These are exactly the fields the dataclass declares. -/
structure Sprite where
  bbox : Nat × Nat × Nat × Nat
  image : Img3
  index : Nat
  view_type : String := "unknown"
deriving DecidableEq, Repr

/-- The declared field names of the `Sprite` dataclass, in declaration order. -/
def spriteFieldNames : List String := ["bbox", "image", "index", "view_type"]

/-- The mutable state of a `SpriteExtractor` instance. -/
structure ExtractorState where
  original_image : Option PyImage := none
  sprites : List Sprite := []
  image_path : Option String := none
  last_binary_mask : Option (List (List Bool)) := none
deriving DecidableEq, Repr

/-- The state produced by `SpriteExtractor.__init__`. -/
def initialState : ExtractorState := {}

/-- Embeds `load_image`: records the path, stores the decode result (the result of
`cv2.imread`, `none` on a missing or undecodable file) and reports success.
The previously loaded image is overwritten even on failure; `sprites` is
not touched. -/
def loadImage (st : ExtractorState) (path : String) (decoded : Option PyImage) :
    ExtractorState × Bool :=
  ({ st with image_path := some path, original_image := decoded }, decoded.isSome)

/-! ## Python slices and numpy means -/

/-- Python list slicing `l[start:stop]` with negative-index normalisation
and clamping. -/
def pySlice (start stop : Int) (l : List α) : List α :=
  let n : Int := l.length
  let norm : Int → Nat := fun i => (min (max (if i < 0 then n + i else i) 0) n).toNat
  let a := norm start
  let b := norm stop
  (l.drop a).take (b - a)

/-- Mean (`np.mean`) over a flat list of values; `none` models the NaN produced on
an empty array. -/
def npMean (l : List Nat) : Option ℚ :=
  if l.length = 0 then none else some ((l.sum : ℚ) / l.length)

/-- Flatten a 2-D array. -/
def flat2 (m : Img2) : List Nat := m.flatten

/-- Flatten a 3-D array to all its channel values. -/
def flat3 (px : Img3) : List Nat := (px.map List.flatten).flatten

/-- Mean (`arr.mean()`) over every element of a `PyImage`; `none` is NaN. -/
def imageMean : PyImage → Option ℚ
  | .gray2d g => npMean (flat2 g)
  | .color px => npMean (flat3 px)

/-! ## Background mode selection (`detect_sprites`, luminance branch) -/

/-- OpenCV `COLOR_BGR2GRAY` of one pixel (fixed-point 0.299 R + 0.587 G + 0.114 B). -/
def bgr2grayPix (p : Pix) : Nat :=
  (1868 * p.getD 0 0 + 9617 * p.getD 1 0 + 4899 * p.getD 2 0 + 8192) / 16384

/-- OpenCV `cv2.cvtColor(img, COLOR_BGR2GRAY)` (also accepts 4-channel input,
ignoring alpha). -/
def cvtColorBGR2GRAY (px : Img3) : Img2 :=
  px.map (fun row => row.map bgr2grayPix)

/-- The four corner patches sampled by `detect_sprites` (10x10 patches inset
by `min(20, dim // 50)`), via Python slicing; note that when the margin is
0 the literal `-margin` endpoint is `0`, making those slices empty as in
Python. -/
def cornerSamples (g : Img2) : List Img2 :=
  let h := g.length
  let w := (g.headD []).length
  let mh : Int := (min 20 (h / 50) : Nat)
  let mw : Int := (min 20 (w / 50) : Nat)
  let cs : Int := 10
  let slice2 : Int → Int → Int → Int → Img2 := fun r1 r2 c1 c2 =>
    (pySlice r1 r2 g).map (fun row => pySlice c1 c2 row)
  [slice2 mh (mh + cs) mw (mw + cs),
   slice2 mh (mh + cs) (-mw - cs) (-mw),
   slice2 (-mh - cs) (-mh) mw (mw + cs),
   slice2 (-mh - cs) (-mh) (-mw - cs) (-mw)]

/-- The test `np.mean([np.mean(s) for s in samples]) > 127`: any empty patch makes the
average NaN, and `NaN > 127` is `False` in Python. -/
def isLightBg (g : Img2) : Bool :=
  match (cornerSamples g).mapM (fun s => npMean (flat2 s)) with
  | some ms => decide ((127 : ℚ) < ms.sum / 4)
  | none => false

/-! ## Binary masks and morphology -/

/-- Binary mask: rows of foreground flags. -/
abbrev Mask := List (List Bool)

/-- Alpha mode `cv2.threshold(alpha, 0, 255, THRESH_BINARY)` on the alpha channel:
foreground where alpha > 0. -/
def alphaMask (px : Img3) : Mask :=
  px.map (fun row => row.map (fun p => decide (0 < p.getD 3 0)))

/-- Light background: `cv2.threshold(gray, 255 - t, 255, THRESH_BINARY_INV)`,
foreground where the value is not strictly above `255 - t`. -/
def threshMaskLight (g : Img2) (t : Nat) : Mask :=
  g.map (fun row => row.map (fun (v : Nat) => decide ((v : Int) ≤ 255 - (t : Int))))

/-- Dark background: `cv2.threshold(gray, t, 255, THRESH_BINARY)`,
foreground where the value is strictly above `t`. -/
def threshMaskDark (g : Img2) (t : Nat) : Mask :=
  g.map (fun row => row.map (fun v => decide (t < v)))

/-- Mask lookup at signed coordinates with an out-of-bounds default. -/
def maskGet (m : Mask) (dflt : Bool) (r c : Int) : Bool :=
  if r < 0 ∨ c < 0 then dflt
  else ((m.getD r.toNat []).getD c.toNat dflt)

/-- The 3x3 structuring element `np.ones((3, 3))` as offsets. -/
def deltas : List (Int × Int) :=
  [(-1, -1), (-1, 0), (-1, 1), (0, -1), (0, 0), (0, 1), (1, -1), (1, 0), (1, 1)]

/-- Apply a per-cell function over the grid of a mask, preserving its shape. -/
def mapGrid (f : Nat → Nat → Bool) (m : Mask) : Mask :=
  (List.range m.length).map (fun r =>
    (List.range ((m.getD r []).length)).map (fun c => f r c))

/-- One `cv2.erode` step with the 3x3 kernel (out-of-bounds counts as
foreground, OpenCV's default +inf constant border). -/
def erode1 (m : Mask) : Mask :=
  mapGrid (fun r c =>
    deltas.all (fun d => maskGet m true ((r : Int) + d.1) ((c : Int) + d.2))) m

/-- One `cv2.dilate` step with the 3x3 kernel (out-of-bounds counts as
background). -/
def dilate1 (m : Mask) : Mask :=
  mapGrid (fun r c =>
    deltas.any (fun d => maskGet m false ((r : Int) + d.1) ((c : Int) + d.2))) m

/-- Zero out a 20-pixel border on all four edges
(`binary[0:20] = 0` etc. in `detect_sprites`). -/
def zeroBorder (m : Mask) : Mask :=
  mapGrid (fun r c =>
    if r < 20 ∨ m.length ≤ r + 20 ∨ c < 20 ∨ (m.getD r []).length ≤ c + 20 then false
    else (m.getD r []).getD c false) m

/-- The full mask cleanup of `detect_sprites` before caching:
morphological opening (1 iteration), erosion (2 iterations), dilation
(1 iteration). -/
def cleanupMask (m : Mask) : Mask :=
  dilate1 (erode1 (erode1 (dilate1 (erode1 m))))

/-! ## Connected components and bounding boxes
(`cv2.findContours(RETR_EXTERNAL)` + `cv2.boundingRect`) -/

/-- A foreground cell of a mask, as (row, column). -/
abbrev Cell := Nat × Nat

/-- All foreground cells of a mask, in row-major order. -/
def cellsOf (m : Mask) : List Cell :=
  ((List.range m.length).map (fun r =>
    ((List.range ((m.getD r []).length)).filter
      (fun c => (m.getD r []).getD c false)).map (fun c => ((r, c) : Cell)))).flatten

/-- Eight-connectivity adjacency of two cells (a cell counts as adjacent to itself;
only ever used against distinct cells). -/
def adj8 (p q : Cell) : Bool :=
  decide (max p.1 q.1 - min p.1 q.1 ≤ 1) && decide (max p.2 q.2 - min p.2 q.2 ≤ 1)

/-- Fuel-bounded region growing: repeatedly moves every remaining cell
adjacent to the accumulated component into it. -/
def grow : Nat → List Cell → List Cell → List Cell × List Cell
  | 0, acc, rem => (acc, rem)
  | fuel + 1, acc, rem =>
    if rem.filter (fun p => acc.any (fun q => adj8 p q)) = [] then (acc, rem)
    else grow fuel (acc ++ rem.filter (fun p => acc.any (fun q => adj8 p q)))
      (rem.filter (fun p => ¬ acc.any (fun q => adj8 p q)))

/-- Split a cell list into 8-connected components (fuel-bounded;
the fuel `cells.length` used below always suffices, as each round of the
outer loop consumes at least one cell). -/
def compsAux : Nat → List Cell → List (List Cell)
  | 0, _ => []
  | _, [] => []
  | fuel + 1, p :: rest =>
    (grow rest.length [p] rest).1 :: compsAux fuel (grow rest.length [p] rest).2

/-- The 8-connected components of a mask. -/
def components (m : Mask) : List (List Cell) :=
  compsAux (cellsOf m).length (cellsOf m)

/-- Bounding box `(x, y, w, h)` of a component, as `cv2.boundingRect`
computes it for the component's contour: minima of the cell coordinates
and extents `max - min + 1` on each axis. -/
def bboxOfComp : List Cell → Nat × Nat × Nat × Nat
  | [] => (0, 0, 0, 0)
  | p :: ps =>
    (((p :: ps).map Prod.snd).foldr min p.2,
     ((p :: ps).map Prod.fst).foldr min p.1,
     ((p :: ps).map Prod.snd).foldr max p.2 - ((p :: ps).map Prod.snd).foldr min p.2 + 1,
     ((p :: ps).map Prod.fst).foldr max p.1 - ((p :: ps).map Prod.fst).foldr min p.1 + 1)

/-- Bounding boxes of the mask's components kept by the area filter
`w * h >= min_area`. -/
def keptBoxes (m : Mask) (min_area : Nat) : List (Nat × Nat × Nat × Nat) :=
  ((components m).map bboxOfComp).filter (fun b => decide (min_area ≤ b.2.2.1 * b.2.2.2))

/-! ## Reading-order sort (`bboxes.sort(key=lambda b: (round(b[1]/50)*50, b[0]))`) -/

/-- Python `round(y / 50) * 50` for a natural `y`: exact banker's rounding of
the rational `y / 50` (the float computation is exact at all ties, which have
denominator 2, and more than float error away from ties otherwise). -/
def rowBucket (y : Nat) : Nat :=
  let d := y / 50
  let m := y % 50
  (if m < 25 then d else if 25 < m then d + 1 else if d % 2 = 0 then d else d + 1) * 50

/-- The sort key `(round(y / 50) * 50, x)` of a bounding box. -/
def sortKey (b : Nat × Nat × Nat × Nat) : Nat × Nat := (rowBucket b.2.1, b.1)

/-- Lexicographic order on sort keys, as Python tuple comparison. -/
def keyR (a b : Nat × Nat × Nat × Nat) : Prop :=
  (sortKey a).1 < (sortKey b).1 ∨
    ((sortKey a).1 = (sortKey b).1 ∧ (sortKey a).2 ≤ (sortKey b).2)

instance : DecidableRel keyR := fun a b => by unfold keyR; infer_instance

instance : IsTotal (Nat × Nat × Nat × Nat) keyR := ⟨by intro a b; unfold keyR; omega⟩

instance : IsTrans (Nat × Nat × Nat × Nat) keyR := ⟨by intro a b c; unfold keyR; omega⟩

/-! ## Sprite construction -/

/-- Crop `image[y:y+h, x:x+w]` from a 3-D array. -/
def cropImg (px : Img3) (x y w h : Nat) : Img3 :=
  ((px.drop y).take h).map (fun row => (row.drop x).take w)

/-- Build `Sprite` records from the sorted boxes, assigning `index`
in enumeration order starting at `i0`. -/
def mkSpritesAux (px : Img3) : Nat → List (Nat × Nat × Nat × Nat) → List Sprite
  | _, [] => []
  | i0, b :: bs =>
    { bbox := b, image := cropImg px b.1 b.2.1 b.2.2.1 b.2.2.2, index := i0,
      view_type := "unknown" } :: mkSpritesAux px (i0 + 1) bs

/-! ## Grid structure (`_detect_grid_structure`, `_get_sprite_grid_position`) -/

/-- Vertical center `y + h // 2` of a sprite's bbox. -/
def yCenter (s : Sprite) : Nat := s.bbox.2.1 + s.bbox.2.2.2 / 2

/-- Horizontal center `x + w // 2` of a sprite's bbox. -/
def xCenter (s : Sprite) : Nat := s.bbox.1 + s.bbox.2.2.1 / 2

/-- Plain ascending order used for Python `sorted(...)` on numbers. -/
def natLe (a b : Nat) : Prop := a ≤ b

instance : DecidableRel natLe := fun a b => by unfold natLe; infer_instance

instance : IsTotal Nat natLe := ⟨by intro a b; unfold natLe; omega⟩

instance : IsTrans Nat natLe := ⟨by intro a b c; unfold natLe; omega⟩

/-- Greedy gap clustering tail: one new cluster per gap above the tolerance
of 100 pixels (inputs are sorted, so natural subtraction is the true gap). -/
def countClustersAux : Nat → List Nat → Nat
  | _, [] => 0
  | prev, q :: qs => (if 100 < q - prev then 1 else 0) + countClustersAux q qs

/-- Embeds `count_clusters` of `_detect_grid_structure`. -/
def countClusters : List Nat → Nat
  | [] => 0
  | p :: ps => 1 + countClustersAux p ps

/-- Sorted vertical centers of a sprite list. -/
def yCentersSorted (sprites : List Sprite) : List Nat :=
  List.insertionSort natLe (sprites.map yCenter)

/-- Sorted horizontal centers of a sprite list. -/
def xCentersSorted (sprites : List Sprite) : List Nat :=
  List.insertionSort natLe (sprites.map xCenter)

/-- Embeds `_detect_grid_structure`: cluster counts (rows, cols) of the sorted
center lists. -/
def detectGridStructure (sprites : List Sprite) : Nat × Nat :=
  match sprites with
  | [] => (0, 0)
  | _ => (countClusters (yCentersSorted sprites), countClusters (xCentersSorted sprites))

/-- Absolute difference of naturals (`abs(p - c)` on Python ints). -/
def natDist (a b : Nat) : Nat := max a b - min a b

/-- The representative-collection loop of `get_cluster_index`: keep a value
as a new representative unless it is within the tolerance of an existing one. -/
def repsAux : List Nat → List Nat → List Nat
  | acc, [] => acc
  | acc, p :: ps =>
    if acc.any (fun c => decide (natDist p c < 100)) then repsAux acc ps
    else repsAux (acc ++ [p]) ps

/-- Embeds `unique_clusters` of `get_cluster_index`, sorted ascending. -/
def uniqueClusters (positions : List Nat) : List Nat :=
  List.insertionSort natLe (repsAux [] positions)

/-- Embeds `get_cluster_index`: index of the first representative within tolerance,
0 if none matches. -/
def getClusterIndex (val : Nat) (positions : List Nat) : Nat :=
  match (uniqueClusters positions).findIdx? (fun c => decide (natDist val c < 100)) with
  | some i => i
  | none => 0

/-- Embeds `_get_sprite_grid_position` (its `rows`/`cols` parameters are unused in
the source). -/
def getSpriteGridPosition (sprites : List Sprite) (s : Sprite) : Nat × Nat :=
  (getClusterIndex (yCenter s) (yCentersSorted sprites),
   getClusterIndex (xCenter s) (xCentersSorted sprites))

/-! ## View classification (`_classify_views`) -/

/-- Assign the given labels to the first sprites positionally (the
`for i, s in enumerate(self.sprites[:k]): s.view_type = views[i]` pattern);
sprites beyond the label list keep their label. -/
def setViewsAux : List String → List Sprite → List Sprite
  | _, [] => []
  | [], rest => rest
  | v :: vs, s :: ss => { s with view_type := v } :: setViewsAux vs ss

/-- The label-sequence policy of `_classify_views`, keyed on sprite count,
hint and the inferred grid shape; `none` selects the `row/col` fallback.
The `n = 4` non-2x2 arm assigns the same four labels by index order, as the
source's two branches do. -/
def classifyTable (n rows cols : Nat) (hint : Option String) : Option (List String) :=
  if hint = some "3x2" ∧ 6 ≤ n then
    some ["front", "top", "side_a", "bottom", "side_b", "back"]
  else if hint = some "2x3" ∧ 6 ≤ n then
    some ["front", "top", "back", "left", "right", "bottom"]
  else if hint = some "2x2" ∧ 4 ≤ n then some ["front", "back", "left", "right"]
  else if n = 1 then some ["front"]
  else if n = 2 then
    if rows = 1 then some ["left", "right"] else some ["front", "back"]
  else if n = 4 then
    if rows = 2 ∧ cols = 2 then some ["front", "back", "left", "right"]
    else some ["front", "back", "left", "right"]
  else if n = 6 then
    if rows = 3 ∧ cols = 2 then some ["front", "top", "side_a", "bottom", "side_b", "back"]
    else if rows = 2 ∧ cols = 3 then some ["front", "top", "back", "left", "right", "bottom"]
    else some ["front", "back", "left", "right", "top", "bottom"]
  else none

/-- Embeds `_classify_views`: hint table, else count/grid lookup, else
`row{r+1}_col{c+1}` fallback labels (the early return on an empty list
leaves the sprites untouched). -/
def classifyViews (sprites : List Sprite) (hint : Option String) : List Sprite :=
  if sprites.length = 0 then sprites
  else
    match classifyTable sprites.length (detectGridStructure sprites).1
        (detectGridStructure sprites).2 hint with
    | some vs => setViewsAux vs sprites
    | none =>
      sprites.map (fun s =>
        { s with
            view_type := "row" ++ toString ((getSpriteGridPosition sprites s).1 + 1) ++
              "_col" ++ toString ((getSpriteGridPosition sprites s).2 + 1) })

/-! ## `detect_sprites` -/

/-- Whether every alpha value of a 4-channel image is fully opaque
(`np.all(alpha_channel == 255)`). -/
def allOpaque (px : Img3) : Bool :=
  px.all (fun row => row.all (fun p => p.getD 3 0 = 255))

/-- The raw binary mask of `detect_sprites`: alpha mode for 4-channel
images whose alpha channel is not uniformly opaque, else the corner-sampled
light/dark luminance thresholding. -/
def rawMaskOf (px : Img3) (threshold : Nat) : Mask :=
  if Img3.chans px = 4 ∧ allOpaque px = false then alphaMask px
  else if isLightBg (cvtColorBGR2GRAY px) then
    threshMaskLight (cvtColorBGR2GRAY px) threshold
  else threshMaskDark (cvtColorBGR2GRAY px) threshold

/-- The mask after morphological cleanup and border suppression. -/
def cleanedMask (px : Img3) (threshold : Nat) : Mask :=
  zeroBorder (cleanupMask (rawMaskOf px threshold))

/-- Area-filtered bounding boxes in reading order
(`bboxes.sort(key=lambda b: (round(b[1]/50)*50, b[0]))`). -/
def sortedKeptBoxes (px : Img3) (threshold min_area : Nat) :
    List (Nat × Nat × Nat × Nat) :=
  List.insertionSort keyR (keptBoxes (cleanedMask px threshold) min_area)

/-- The sprite list computed by a successful `detect_sprites` run on a
3-D image: crop, index, then classify when non-empty. -/
def detectCore (px : Img3) (threshold min_area : Nat) (hint : Option String) :
    List Sprite :=
  if 0 < (mkSpritesAux px 0 (sortedKeptBoxes px threshold min_area)).length then
    classifyViews (mkSpritesAux px 0 (sortedKeptBoxes px threshold min_area)) hint
  else mkSpritesAux px 0 (sortedKeptBoxes px threshold min_area)

/-- Embeds `detect_sprites(threshold, min_area, layout_hint)`.  Returns the
post-state together with the result; Python exceptions are `Except.error`,
and the post-state keeps the mutations performed before the raise
(`self.sprites` is cleared at the top of the method, before any raise).
With no loaded image the method returns `[]` without touching the state.
On a 2-D grayscale buffer the unconditional `self.original_image.shape[2]`
raises `IndexError`. -/
def detectSprites (st : ExtractorState) (threshold min_area : Nat)
    (hint : Option String) : ExtractorState × Except String (List Sprite) :=
  match st.original_image with
  | none => (st, .ok [])
  | some (.gray2d _) =>
    ({ st with sprites := [] }, .error "IndexError: tuple index out of range")
  | some (.color px) =>
    if Img3.chans px ≠ 3 ∧ Img3.chans px ≠ 4 then
      ({ st with sprites := [] }, .error "cv2.error: invalid channel count")
    else
      ({ st with
          sprites := detectCore px threshold min_area hint,
          last_binary_mask := some (cleanupMask (rawMaskOf px threshold)) },
       .ok (detectCore px threshold min_area hint))

/-- Embeds `get_sprite(index)`: bounds-checked lookup, `none` when out of range
(the Python parameter is an int; a negative argument fails the
`0 <= index` check, so a `Nat` index is faithful for the in-range side and
negatives are covered by the out-of-range behaviour). -/
def getSprite (st : ExtractorState) (index : Nat) : Option Sprite :=
  if index < st.sprites.length then st.sprites.get? index else none

/-! ## `export_sprites` -/

/-- One exported file: its path and the written pixel data. -/
structure ExportEntry where
  path : String
  img : Img3
deriving DecidableEq, Repr

/-- Zero-padded `{index + 1:02d}`. -/
def pad2 (n : Nat) : String :=
  if n < 10 then "0" ++ toString n else toString n

/-- Filename chosen by `export_sprites` for one sprite. -/
def spriteFilename (pfx fmt : String) (useViewNames : Bool) (s : Sprite) : String :=
  if useViewNames = true ∧ s.view_type ≠ "unknown" then
    pfx ++ "_" ++ s.view_type ++ "." ++ fmt
  else pfx ++ "_" ++ pad2 (s.index + 1) ++ "." ++ fmt

/-- A canvas of `hgt` rows by `wdt` columns of `chans`-channel pixels filled
with `fill` (`np.zeros((h, w, 4))` / `np.full((h, w, 3), fill)`). -/
def mkCanvas (hgt wdt chans fill : Nat) : Img3 :=
  List.replicate hgt (List.replicate wdt (List.replicate chans fill))

/-- Paste `simg` into `canvas` with its top-left corner at `(y0, x0)`
(`new_img[y0:y0+h, x0:x0+w] = sprite_img`). -/
def paste (canvas simg : Img3) (y0 x0 : Nat) : Img3 :=
  (List.range canvas.length).map (fun r =>
    let row := canvas.getD r []
    (List.range row.length).map (fun c =>
      if y0 ≤ r ∧ r < y0 + simg.length ∧ x0 ≤ c ∧ c < x0 + Img3.width simg then
        (simg.getD (r - y0) []).getD (c - x0) []
      else row.getD c []))

/-- Canvas fill value: white if the whole source image's mean exceeds 127,
else black; the inner `none` is the NaN mean of an empty array
(`NaN > 127` is `False`). -/
def fillVal : Option ℚ → Nat
  | some q => if 127 < q then 255 else 0
  | none => 0

/-- Canvas height for one sprite: the uniform target, or the sprite's own
image height plus `2*padding` (`curr_target_h` in the source). -/
def canvasH (pad : Nat) (uni : Bool) (th : Nat) (s : Sprite) : Nat :=
  if uni then th else s.image.length + 2 * pad

/-- Canvas width for one sprite (`curr_target_w` in the source). -/
def canvasW (pad : Nat) (uni : Bool) (tw : Nat) (s : Sprite) : Nat :=
  if uni then tw else Img3.width s.image + 2 * pad

/-- Build the canvas for one sprite: transparent 4-channel zeros when the
crop has alpha, else a 3-channel fill from the whole source image's mean
(raising `AttributeError` when no source image is loaded). -/
def spriteCanvas (mean2 : Option (Option ℚ)) (pad : Nat) (uni : Bool)
    (tw th : Nat) (s : Sprite) : Except String Img3 :=
  if Img3.chans s.image = 4 then
    .ok (mkCanvas (canvasH pad uni th s) (canvasW pad uni tw s) 4 0)
  else
    match mean2 with
    | none => .error "AttributeError: NoneType has no attribute mean"
    | some m => .ok (mkCanvas (canvasH pad uni th s) (canvasW pad uni tw s) 3 (fillVal m))

/-- Process one sprite for export: on the padding/uniform path build the
canvas, then paste the crop centered (raising `ValueError` if the sprite
does not fit the canvas, as the numpy slice assignment would). -/
def processSprite (mean2 : Option (Option ℚ)) (pad : Nat) (uni : Bool)
    (tw th : Nat) (s : Sprite) : Except String Img3 :=
  if 0 < pad ∨ uni = true then
    match spriteCanvas mean2 pad uni tw th s with
    | .error e => .error e
    | .ok canvas =>
      if s.image.length ≤ canvasH pad uni th s ∧
          Img3.width s.image ≤ canvasW pad uni tw s then
        .ok (paste canvas s.image ((canvasH pad uni th s - s.image.length) / 2)
          ((canvasW pad uni tw s - Img3.width s.image) / 2))
      else .error "ValueError: could not broadcast input array"
  else .ok s.image

/-- The export loop; stops at the first error, as the Python loop raises. -/
def exportList (mean2 : Option (Option ℚ)) (dir pfx fmt : String)
    (useViewNames : Bool) (pad : Nat) (uni : Bool) (tw th : Nat) :
    List Sprite → Except String (List ExportEntry)
  | [] => .ok []
  | s :: ss =>
    match processSprite mean2 pad uni tw th s with
    | .error e => .error e
    | .ok img =>
      match exportList mean2 dir pfx fmt useViewNames pad uni tw th ss with
      | .error e => .error e
      | .ok rest =>
        .ok ({ path := dir ++ "/" ++ spriteFilename pfx fmt useViewNames s,
               img := img } :: rest)

/-- Maximum bbox width over the current sprites. -/
def maxBoxW (st : ExtractorState) : Nat :=
  (st.sprites.map (fun s => s.bbox.2.2.1)).foldr max 0

/-- Maximum bbox height over the current sprites. -/
def maxBoxH (st : ExtractorState) : Nat :=
  (st.sprites.map (fun s => s.bbox.2.2.2)).foldr max 0

/-- Embeds `export_sprites`: the uniform canvas size is computed once, before the
loop, from the bbox maxima; each sprite is then processed and written in
order.  The result is the list of written files. -/
def exportSprites (st : ExtractorState) (dir pfx fmt : String)
    (useViewNames : Bool) (pad : Nat) (uni : Bool) :
    Except String (List ExportEntry) :=
  exportList (st.original_image.map imageMean) dir pfx fmt useViewNames pad uni
    (if uni = true ∧ st.sprites ≠ [] then maxBoxW st + 2 * pad else 0)
    (if uni = true ∧ st.sprites ≠ [] then maxBoxH st + 2 * pad else 0)
    st.sprites

/-- Sequential file-system semantics of the writes: the content at a path
after the loop is that of the last write to it. -/
def lwFold (init : Option Img3) (writes : List ExportEntry) (p : String) : Option Img3 :=
  writes.foldl (fun acc e => if e.path = p then some e.img else acc) init

/-- Final content at a path once all exported files are written. -/
def lastWrite (writes : List ExportEntry) (p : String) : Option Img3 :=
  lwFold none writes p

/-! ## Reachable extractor states -/

/-- States reachable from `__init__` through the public operations.
`get_sprite` mutates nothing and `export_sprites` only writes files, so
both leave the state unchanged; `load_image` is parameterised by the decode
result and `detect_sprites` by its arguments. -/
inductive Reachable : ExtractorState → Prop where
  | init : Reachable initialState
  | load (st : ExtractorState) (path : String) (decoded : Option PyImage) :
      Reachable st → Reachable (loadImage st path decoded).1
  | detect (st : ExtractorState) (threshold min_area : Nat) (hint : Option String) :
      Reachable st → Reachable (detectSprites st threshold min_area hint).1
  | get (st : ExtractorState) (index : Nat) : Reachable st → Reachable st
  | exportOp (st : ExtractorState) (dir pfx fmt : String) (uv : Bool)
      (pad : Nat) (uni : Bool) : Reachable st → Reachable st

/-! ## Claim-level predicates -/

/-- Rectangularity of a 2-D array: `h` rows, all of length `w`. -/
def Rect2 (g : Img2) (h w : Nat) : Prop :=
  g.length = h ∧ ∀ row ∈ g, row.length = w

/-- Rectangularity of a 3-D array: `h` rows, all of length `w`. -/
def Rect3 (px : Img3) (h w : Nat) : Prop :=
  px.length = h ∧ ∀ row ∈ px, row.length = w

/-- Rectangularity of a mask: `h` rows, all of length `w`. -/
def MaskRect (m : Mask) (h w : Nat) : Prop :=
  m.length = h ∧ ∀ row ∈ m, row.length = w

/-- A bbox `(x, y, w, h)` is contained in an image's extent:
`x + w <= width` and `y + h <= height` (`0 <= x, y` holds by the `Nat`
representation, matching the nonnegative pixel coordinates). -/
def containedInExtent (img : PyImage) (b : Nat × Nat × Nat × Nat) : Prop :=
  b.1 + b.2.2.1 ≤ img.width ∧ b.2.1 + b.2.2.2 ≤ img.height

/-- Containment against an optional current image (no image: nothing to
contain in, the claim is about states with a loaded image). -/
def optContained : Option PyImage → Nat × Nat × Nat × Nat → Prop
  | none, _ => True
  | some img, b => containedInExtent img b

instance (o : Option PyImage) (b : Nat × Nat × Nat × Nat) :
    Decidable (optContained o b) :=
  match o with
  | none => .isTrue trivial
  | some _ => inferInstanceAs (Decidable (_ ∧ _))

/-- C3's invariant as claimed: every sprite bbox of the state is contained
in the current source image's extent. -/
def StateContained (st : ExtractorState) : Prop :=
  ∀ s ∈ st.sprites, optContained st.original_image s.bbox

/-! ## Concrete instances used by counterexamples and witnesses -/

/-- Test sheet, a 45x45 BGRA image: a fully opaque 7x7 blob at rows/cols 19..25 on a
fully transparent background. -/
def bigImg : Img3 :=
  (List.range 45).map (fun r => (List.range 45).map (fun c =>
    if 19 ≤ r ∧ r ≤ 25 ∧ 19 ≤ c ∧ c ≤ 25 then [0, 0, 0, 255] else [0, 0, 0, 0]))

/-- Small 10x10 fully opaque BGRA image. -/
def smallImg : Img3 := List.replicate 10 (List.replicate 10 [0, 0, 0, 255])

/-- Tiny 1x1 black BGR image. -/
def tinyImg : Img3 := [[[0, 0, 0]]]

/-- Grayscale 45x45 all-zero 2-D buffer (as `cv2.imread` returns for a
grayscale file). -/
def grayImg : Img2 := List.replicate 45 (List.replicate 45 0)

/-- State after loading `bigImg`. -/
def stBig : ExtractorState := (loadImage initialState "big.png" (some (.color bigImg))).1

/-- State after detecting on `stBig` (threshold 10, min_area 1, no hint). -/
def stDet : ExtractorState := (detectSprites stBig 10 1 none).1

/-- State after then loading `smallImg` over the detection result. -/
def stBad : ExtractorState := (loadImage stDet "small.png" (some (.color smallImg))).1

/-- The single sprite detected on `bigImg`. -/
def sBig : Sprite :=
  { bbox := (20, 20, 5, 5), image := List.replicate 5 (List.replicate 5 [0, 0, 0, 255]),
    index := 0, view_type := "front" }

/-- State with a 1x1 color image loaded. -/
def stTiny : ExtractorState := (loadImage initialState "tiny.png" (some (.color tinyImg))).1

/-- State with a 2-D grayscale buffer loaded. -/
def stGray : ExtractorState := (loadImage initialState "gray.png" (some (.gray2d grayImg))).1

/-- A plain sprite record used to build states with stale sprites. -/
def sPrior : Sprite := { bbox := (0, 0, 3, 3), image := [], index := 0 }

/-- Prior state for the C2 counterexample: no loaded image, one stale sprite. -/
def stPrior : ExtractorState := { original_image := none, sprites := [sPrior] }

/-- Sprites whose vertical centers 0, 60, 120 chain across the 100px
tolerance: gap clustering sees one row, representative matching two. -/
def sChainA : Sprite := { bbox := (0, 0, 1, 1), image := [], index := 0 }

/-- Second chained sprite (center 60). -/
def sChainB : Sprite := { bbox := (0, 60, 1, 1), image := [], index := 1 }

/-- Third chained sprite (center 120). -/
def sChainC : Sprite := { bbox := (0, 120, 1, 1), image := [], index := 2 }

/-- The chained sprite list of the C5 counterexample. -/
def chainSprites : List Sprite := [sChainA, sChainB, sChainC]

/-- Four sprites in a clean 2x2 grid (centers 1 and 201 on both axes). -/
def gridSprites : List Sprite :=
  [{ bbox := (0, 0, 2, 2), image := [], index := 0 },
   { bbox := (200, 0, 2, 2), image := [], index := 1 },
   { bbox := (0, 200, 2, 2), image := [], index := 2 },
   { bbox := (200, 200, 2, 2), image := [], index := 3 }]

/-- A 1x1 fully opaque BGRA crop. -/
def onePix : Img3 := [[[0, 0, 0, 255]]]

/-- Export witness state: one sprite with a 1x1 4-channel crop. -/
def stExp : ExtractorState :=
  { original_image := none,
    sprites := [{ bbox := (0, 0, 1, 1), image := onePix, index := 0, view_type := "front" }] }

/-- Export state with two sprites sharing the view label "left". -/
def stDup : ExtractorState :=
  { original_image := none,
    sprites := [{ bbox := (0, 0, 1, 1), image := onePix, index := 0, view_type := "left" },
                { bbox := (5, 0, 1, 1), image := onePix, index := 1, view_type := "left" }] }

/-! # Theorems -/

attribute [irreducible] detectCore sortedKeptBoxes cleanedMask cleanupMask rawMaskOf

/-! ## General helper lemmas -/

lemma findIdxQ_lt_length {p : α → Bool} {l : List α} {i : Nat}
    (h : l.findIdx? p = some i) : i < l.length := by
  induction l generalizing i with
  | nil => simp [List.findIdx?] at h
  | cons a as ih =>
    rw [List.findIdx?_cons] at h
    by_cases hp : p a
    · simp [hp] at h
      simp [List.length_cons]
      omega
    · simp [hp] at h
      obtain ⟨j, hj, rfl⟩ := h
      have := ih hj
      simp [List.length_cons]
      omega

lemma le_foldr_max (a : Nat) (l : List Nat) : a ≤ l.foldr max a := by
  induction l with
  | nil => simp
  | cons x xs ih => simp only [List.foldr]; omega

lemma mem_le_foldr_max {b : Nat} {l : List Nat} (a : Nat) (hb : b ∈ l) :
    b ≤ l.foldr max a := by
  induction l with
  | nil => simp at hb
  | cons x xs ih =>
    simp only [List.foldr]
    rcases List.mem_cons.1 hb with rfl | h
    · omega
    · have := ih h
      omega

lemma foldr_max_mem (a : Nat) (l : List Nat) :
    l.foldr max a = a ∨ l.foldr max a ∈ l := by
  induction l with
  | nil => simp
  | cons x xs ih =>
    simp only [List.foldr]
    rcases Nat.le_total x (xs.foldr max a) with h | h
    · rw [Nat.max_eq_right h]
      rcases ih with h' | h'
      · exact .inl h'
      · exact .inr (List.mem_cons_of_mem _ h')
    · rw [Nat.max_eq_left h]
      exact .inr (List.mem_cons_self _ _)

lemma foldr_min_le (a : Nat) (l : List Nat) : l.foldr min a ≤ a := by
  induction l with
  | nil => simp
  | cons x xs ih => simp only [List.foldr]; omega

lemma foldr_min_le_mem {b : Nat} {l : List Nat} (a : Nat) (hb : b ∈ l) :
    l.foldr min a ≤ b := by
  induction l with
  | nil => simp at hb
  | cons x xs ih =>
    simp only [List.foldr]
    rcases List.mem_cons.1 hb with rfl | h
    · omega
    · have := ih h
      omega

lemma getD_mem {l : List α} {n : Nat} (d : α) (h : n < l.length) : l.getD n d ∈ l := by
  rw [List.getD_eq_getElem l d h]
  exact List.getElem_mem h

/-! ## Detection post-state helpers -/

lemma detect_color_ok (t a : Nat) (hint : Option String) {st : ExtractorState} {px : Img3}
    (him : st.original_image = some (.color px))
    (hc : ¬(Img3.chans px ≠ 3 ∧ Img3.chans px ≠ 4)) :
    (detectSprites st t a hint).1.sprites = detectCore px t a hint ∧
    (detectSprites st t a hint).2 = .ok (detectCore px t a hint) := by
  unfold detectSprites
  rw [him]
  dsimp only []
  rw [if_neg hc]
  exact ⟨rfl, rfl⟩

lemma detect_gray_err {st : ExtractorState} {t a : Nat} {hint : Option String} {g : Img2}
    (him : st.original_image = some (.gray2d g)) :
    (detectSprites st t a hint).2 = .error "IndexError: tuple index out of range" := by
  unfold detectSprites
  rw [him]

lemma detect_badchan_err {st : ExtractorState} {t a : Nat} {hint : Option String} {px : Img3}
    (him : st.original_image = some (.color px))
    (hc : Img3.chans px ≠ 3 ∧ Img3.chans px ≠ 4) :
    (detectSprites st t a hint).2 = .error "cv2.error: invalid channel count" := by
  unfold detectSprites
  rw [him]
  dsimp only []
  rw [if_pos hc]

lemma detect_post_sprites {st : ExtractorState} {t a : Nat} {hint : Option String}
    {img : PyImage} {st' : ExtractorState} {out : List Sprite}
    (him : st.original_image = some img)
    (h : detectSprites st t a hint = (st', .ok out)) : st'.sprites = out := by
  have hfst : (detectSprites st t a hint).1 = st' := congrArg Prod.fst h
  have hsnd : (detectSprites st t a hint).2 = .ok out := congrArg Prod.snd h
  cases img with
  | gray2d g =>
    rw [detect_gray_err him] at hsnd
    exact absurd hsnd (by simp)
  | color px =>
    by_cases hc : Img3.chans px ≠ 3 ∧ Img3.chans px ≠ 4
    · rw [detect_badchan_err him hc] at hsnd
      exact absurd hsnd (by simp)
    · obtain ⟨h1, h2⟩ := detect_color_ok t a hint him hc
      rw [h2] at hsnd
      injection hsnd with h3
      rw [← hfst, h1, h3]

lemma detect_none (st : ExtractorState) (t a : Nat) (hint : Option String)
    (him : st.original_image = none) : detectSprites st t a hint = (st, .ok []) := by
  unfold detectSprites
  rw [him]

/-- Detection output characterisation: a successful result on a loaded
color image is exactly `detectCore`. -/
lemma detect_out_eq_core {st : ExtractorState} {t a : Nat} {hint : Option String}
    {px : Img3} {st' : ExtractorState} {out : List Sprite}
    (him : st.original_image = some (.color px))
    (h : detectSprites st t a hint = (st', .ok out)) :
    out = detectCore px t a hint := by
  have hsnd : (detectSprites st t a hint).2 = .ok out := congrArg Prod.snd h
  by_cases hc : Img3.chans px ≠ 3 ∧ Img3.chans px ≠ 4
  · rw [detect_badchan_err him hc] at hsnd
    exact absurd hsnd (by simp)
  · obtain ⟨h1, h2⟩ := detect_color_ok t a hint him hc
    rw [h2] at hsnd
    injection hsnd with h3
    exact h3.symm

/-- C1: the `Sprite` dataclass declares no `rotation` field — the claim's
"every Sprite record carries a rotation field ... default 0" fails on the
code (its own test `tests/test_extractor.py` asserts `sprite.rotation == 0`
on freshly detected sprites, which raises `AttributeError`). -/
theorem C1_rotation_field_missing : "rotation" ∉ spriteFieldNames := by
  decide

/-- C4: on a loaded 2-D (single-channel) grayscale buffer, `detect_sprites`
raises `IndexError` at the unconditional `self.original_image.shape[2]`
instead of completing, contradicting the claimed totality on 1-channel
input (evaluated here at a concrete 45x45 grayscale buffer). -/
theorem C4_grayscale_raises :
    (detectSprites stGray 10 100 none).2 = .error "IndexError: tuple index out of range"
      ∧ (detectSprites stGray 10 100 none).1.sprites = [] := by
  constructor <;> with_unfolding_all rfl

/-- C9: a failed load (`cv2.imread` returning None) reports `false`,
overwrites any previously loaded image with absence, and a subsequent
`detect_sprites` returns the empty list while leaving that state unchanged. -/
theorem C9_failed_load_discards :
    ∀ (st : ExtractorState) (path : String) (t a : Nat) (hint : Option String),
    (loadImage st path none).2 = false ∧
    (loadImage st path none).1.original_image = none ∧
    detectSprites (loadImage st path none).1 t a hint = ((loadImage st path none).1, .ok []) :=
  fun _ _ _ _ _ => ⟨rfl, rfl, rfl⟩

/-- C2 (counterexample): with no loaded image and a stale non-empty sprite
list, `detect_sprites` returns `[]` but leaves the state's sprites intact,
so the state's sprites do not equal the returned list. -/
theorem C2_counterexample :
    detectSprites stPrior 10 100 none = (stPrior, .ok []) ∧ stPrior.sprites ≠ [] :=
  ⟨rfl, by decide⟩

/-- C2 (amended): when an image is loaded and detection succeeds, the
state's sprites are replaced wholesale with the returned list; when no
image is loaded, the call returns `[]` and leaves the entire state — in
particular any prior sprites — unchanged. -/
theorem C2_detect_replaces_wholesale :
    ∀ (st : ExtractorState) (t a : Nat) (hint : Option String),
    (∀ img, st.original_image = some img →
      ∀ st' out, detectSprites st t a hint = (st', .ok out) → st'.sprites = out) ∧
    (st.original_image = none → detectSprites st t a hint = (st, .ok [])) :=
  fun st t a hint =>
    ⟨fun _ him _ _ h => detect_post_sprites him h,
     fun him => detect_none st t a hint him⟩

/-- C2 witness: the amended theorem applied at the concrete 1x1-image state,
whose detection succeeds with an empty sprite list. -/
theorem C2_witness : (detectSprites stTiny 10 1 none).1.sprites = [] := by
  refine (C2_detect_replaces_wholesale stTiny 10 1 none).1 (.color tinyImg) rfl
    (detectSprites stTiny 10 1 none).1 [] ?_
  with_unfolding_all rfl

/-! ## Grid clustering lemmas (C5) -/

lemma repsAux_ne_nil : ∀ (l acc : List Nat), acc ≠ [] ∨ l ≠ [] → repsAux acc l ≠ [] := by
  intro l
  induction l with
  | nil =>
    intro acc h
    rcases h with h | h
    · simpa [repsAux] using h
    · exact absurd rfl h
  | cons p ps ih =>
    intro acc _
    unfold repsAux
    by_cases hb : acc.any (fun c => decide (natDist p c < 100)) = true
    · rw [if_pos hb]
      refine ih acc (.inl ?_)
      intro hnil
      rw [hnil] at hb
      simp at hb
    · rw [if_neg hb]
      exact ih (acc ++ [p]) (.inl (by simp))

lemma uniqueClusters_ne_nil {positions : List Nat} (h : positions ≠ []) :
    uniqueClusters positions ≠ [] := by
  unfold uniqueClusters
  intro hnil
  have hlen : (List.insertionSort natLe (repsAux [] positions)).length =
      (repsAux [] positions).length :=
    (List.perm_insertionSort natLe (repsAux [] positions)).length_eq
  rw [hnil] at hlen
  exact repsAux_ne_nil positions [] (.inr h) (List.length_eq_zero.1 hlen.symm)

lemma getClusterIndex_lt {positions : List Nat} (val : Nat) (h : positions ≠ []) :
    getClusterIndex val positions < (uniqueClusters positions).length := by
  unfold getClusterIndex
  cases hf : (uniqueClusters positions).findIdx? (fun c => decide (natDist val c < 100)) with
  | some i => exact findIdxQ_lt_length hf
  | none =>
    have := uniqueClusters_ne_nil h
    cases hu : uniqueClusters positions with
    | nil => exact absurd hu this
    | cons a as => simp

lemma yCentersSorted_ne_nil {sprites : List Sprite} {s : Sprite} (h : s ∈ sprites) :
    yCentersSorted sprites ≠ [] := by
  unfold yCentersSorted
  intro hnil
  have hlen := (List.perm_insertionSort natLe (sprites.map yCenter)).length_eq
  rw [hnil] at hlen
  have : sprites = [] := by
    cases sprites with
    | nil => rfl
    | cons a as => simp at hlen
  rw [this] at h
  simp at h

lemma xCentersSorted_ne_nil {sprites : List Sprite} {s : Sprite} (h : s ∈ sprites) :
    xCentersSorted sprites ≠ [] := by
  unfold xCentersSorted
  intro hnil
  have hlen := (List.perm_insertionSort natLe (sprites.map xCenter)).length_eq
  rw [hnil] at hlen
  have : sprites = [] := by
    cases sprites with
    | nil => rfl
    | cons a as => simp at hlen
  rw [this] at h
  simp at h

/-- C5 (counterexample): three sprites whose vertical centers 0, 60, 120
chain across the 100px tolerance: greedy gap clustering counts one row,
but the matching procedure retains representatives 0 and 120 and places the
third sprite at row index 1, outside the inferred 1xC grid. -/
theorem C5_counterexample :
    sChainC ∈ chainSprites ∧
    ¬ ((getSpriteGridPosition chainSprites sChainC).1 < (detectGridStructure chainSprites).1 ∧
       (getSpriteGridPosition chainSprites sChainC).2 < (detectGridStructure chainSprites).2) := by
  decide

/-- C5 (amended): a sprite's grid position indices are bounded by the number
of cluster representatives retained by the matching procedure of
`_get_sprite_grid_position` (which is at least 1 on a non-empty sprite
list); these counts can exceed the greedy gap-clustering counts (rows, cols)
of `_detect_grid_structure` when a chain of centers spans more than the
tolerance, so fallback labels may name cells outside the inferred RxC grid. -/
theorem C5_grid_position_bounded :
    ∀ (sprites : List Sprite) (s : Sprite), s ∈ sprites →
    (getSpriteGridPosition sprites s).1 < (uniqueClusters (yCentersSorted sprites)).length ∧
    (getSpriteGridPosition sprites s).2 < (uniqueClusters (xCentersSorted sprites)).length := by
  intro sprites s hs
  unfold getSpriteGridPosition
  exact ⟨getClusterIndex_lt _ (yCentersSorted_ne_nil hs),
         getClusterIndex_lt _ (xCentersSorted_ne_nil hs)⟩

/-- C5 witness: the amended bound evaluated on the chained sprite list. -/
theorem C5_witness :
    (getSpriteGridPosition chainSprites sChainC).1 <
      (uniqueClusters (yCentersSorted chainSprites)).length ∧
    (getSpriteGridPosition chainSprites sChainC).2 <
      (uniqueClusters (xCentersSorted chainSprites)).length :=
  C5_grid_position_bounded chainSprites sChainC (by decide)

/-! ## Classification lemmas (C7) -/

lemma setViewsAux_map_view : ∀ (vs : List String) (l : List Sprite),
    l.length = vs.length →
    (setViewsAux vs l).map Sprite.view_type = vs := by
  intro vs
  induction vs with
  | nil =>
    intro l hl
    cases l with
    | nil => rfl
    | cons a as => simp at hl
  | cons v vt ih =>
    intro l hl
    cases l with
    | nil => simp at hl
    | cons a as =>
      simp only [setViewsAux, List.map_cons]
      rw [ih as (by simpa using hl)]

/-- C7: in automatic mode (no layout hint), whenever exactly 4 sprites are
detected and the inferred grid is 2x2, `_classify_views` assigns the labels
front, back, left, right in index order. -/
theorem C7_four_sprites_2x2_labels :
    ∀ (sprites : List Sprite), sprites.length = 4 →
    detectGridStructure sprites = (2, 2) →
    (classifyViews sprites none).map Sprite.view_type = ["front", "back", "left", "right"] := by
  intro sprites hlen hgrid
  have htab : classifyTable sprites.length (detectGridStructure sprites).1
      (detectGridStructure sprites).2 none = some ["front", "back", "left", "right"] := by
    rw [hlen, hgrid]
    decide
  unfold classifyViews
  rw [htab, hlen]
  norm_num
  exact setViewsAux_map_view _ sprites (by rw [hlen]; rfl)

/-- C7 witness: the classification evaluated on a concrete clean 2x2 grid
of four sprites. -/
theorem C7_witness :
    (classifyViews gridSprites none).map Sprite.view_type =
      ["front", "back", "left", "right"] :=
  C7_four_sprites_2x2_labels gridSprites (by decide) (by decide)

/-! ## Positional preservation through classification (C6) -/

lemma setViewsAux_length : ∀ (vs : List String) (l : List Sprite),
    (setViewsAux vs l).length = l.length := by
  intro vs
  induction vs with
  | nil => intro l; cases l <;> rfl
  | cons v vt ih =>
    intro l
    cases l with
    | nil => rfl
    | cons s ss => simpa [setViewsAux] using ih ss

lemma setViewsAux_get?_proj {β : Type} (g : Sprite → β)
    (hg : ∀ (s : Sprite) (v : String), g { s with view_type := v } = g s) :
    ∀ (vs : List String) (l : List Sprite) (k : Nat),
    ((setViewsAux vs l).get? k).map g = (l.get? k).map g := by
  intro vs
  induction vs with
  | nil => intro l k; cases l <;> rfl
  | cons v vt ih =>
    intro l k
    cases l with
    | nil => rfl
    | cons s ss =>
      cases k with
      | zero => simp [setViewsAux, hg]
      | succ k => simpa [setViewsAux] using ih ss k

lemma classifyViews_length (l : List Sprite) (hint : Option String) :
    (classifyViews l hint).length = l.length := by
  unfold classifyViews
  repeat' split
  all_goals first
    | rfl
    | exact setViewsAux_length _ _
    | simp [List.length_map]

lemma classifyViews_get?_proj {β : Type} (g : Sprite → β)
    (hg : ∀ (s : Sprite) (v : String), g { s with view_type := v } = g s)
    (l : List Sprite) (hint : Option String) (k : Nat) :
    ((classifyViews l hint).get? k).map g = (l.get? k).map g := by
  unfold classifyViews
  split
  · rfl
  · split
    · exact setViewsAux_get?_proj g hg _ _ _
    · rw [List.get?_map]
      cases l.get? k with
      | none => rfl
      | some s => simp [hg]

lemma mkSpritesAux_length (px : Img3) :
    ∀ (bs : List (Nat × Nat × Nat × Nat)) (i : Nat),
    (mkSpritesAux px i bs).length = bs.length := by
  intro bs
  induction bs with
  | nil => intro i; rfl
  | cons b bt ih => intro i; simpa [mkSpritesAux] using ih (i + 1)

lemma mkSpritesAux_get?_index (px : Img3) :
    ∀ (bs : List (Nat × Nat × Nat × Nat)) (i k : Nat), k < bs.length →
    ((mkSpritesAux px i bs).get? k).map Sprite.index = some (i + k) := by
  intro bs
  induction bs with
  | nil => intro i k hk; simp at hk
  | cons b bt ih =>
    intro i k hk
    cases k with
    | zero => simp [mkSpritesAux]
    | succ k =>
      have := ih (i + 1) k (by simpa using hk)
      simp only [mkSpritesAux, List.get?_cons_succ]
      rw [this]
      congr 1
      omega

lemma mkSpritesAux_get?_bbox (px : Img3) :
    ∀ (bs : List (Nat × Nat × Nat × Nat)) (i k : Nat),
    ((mkSpritesAux px i bs).get? k).map Sprite.bbox = bs.get? k := by
  intro bs
  induction bs with
  | nil => intro i k; rfl
  | cons b bt ih =>
    intro i k
    cases k with
    | zero => simp [mkSpritesAux]
    | succ k => simpa [mkSpritesAux] using ih (i + 1) k

lemma detectCore_length (px : Img3) (t a : Nat) (hint : Option String) :
    (detectCore px t a hint).length = (sortedKeptBoxes px t a).length := by
  unfold detectCore
  split
  · rw [classifyViews_length, mkSpritesAux_length]
  · rw [mkSpritesAux_length]

lemma detectCore_get?_index (px : Img3) (t a : Nat) (hint : Option String)
    (k : Nat) (hk : k < (sortedKeptBoxes px t a).length) :
    ((detectCore px t a hint).get? k).map Sprite.index = some k := by
  unfold detectCore
  split
  · rw [classifyViews_get?_proj Sprite.index (fun s v => rfl)]
    simpa using mkSpritesAux_get?_index px _ 0 k hk
  · simpa using mkSpritesAux_get?_index px _ 0 k hk

lemma detectCore_get?_bbox (px : Img3) (t a : Nat) (hint : Option String) (k : Nat) :
    ((detectCore px t a hint).get? k).map Sprite.bbox = (sortedKeptBoxes px t a).get? k := by
  unfold detectCore
  split
  · rw [classifyViews_get?_proj Sprite.bbox (fun s v => rfl)]
    exact mkSpritesAux_get?_bbox px _ 0 k
  · exact mkSpritesAux_get?_bbox px _ 0 k

lemma sortedKeptBoxes_sorted (px : Img3) (t a : Nat) :
    List.Sorted keyR (sortedKeptBoxes px t a) := by
  unfold sortedKeptBoxes
  exact List.sorted_insertionSort keyR _

/-- C6: a successful `detect_sprites` assigns `index` 0..N-1 in list order,
and the output is sorted by the key `(round(y/50)*50, x)`: for any two
positions `i < j` the key at `i` is lexicographically at most the key at
`j` — either a strictly smaller 50px row bucket, or the same bucket with
`x_i <= x_j`; in particular, within the same row bucket the sprite with
strictly smaller x receives the strictly smaller index (= position). -/
theorem C6_reading_order :
    ∀ (st : ExtractorState) (t a : Nat) (hint : Option String)
      (st' : ExtractorState) (out : List Sprite),
    detectSprites st t a hint = (st', .ok out) →
    (∀ k (hk : k < out.length), (out.get ⟨k, hk⟩).index = k) ∧
    (∀ i j (hi : i < out.length) (hj : j < out.length), i < j →
      rowBucket (out.get ⟨i, hi⟩).bbox.2.1 < rowBucket (out.get ⟨j, hj⟩).bbox.2.1 ∨
      (rowBucket (out.get ⟨i, hi⟩).bbox.2.1 = rowBucket (out.get ⟨j, hj⟩).bbox.2.1 ∧
        (out.get ⟨i, hi⟩).bbox.1 ≤ (out.get ⟨j, hj⟩).bbox.1)) ∧
    (∀ i j (hi : i < out.length) (hj : j < out.length),
      rowBucket (out.get ⟨i, hi⟩).bbox.2.1 = rowBucket (out.get ⟨j, hj⟩).bbox.2.1 →
      (out.get ⟨i, hi⟩).bbox.1 < (out.get ⟨j, hj⟩).bbox.1 → i < j) := by
  intro st t a hint st' out h
  cases hoi : st.original_image with
  | none =>
    rw [detect_none st t a hint hoi] at h
    injection h with h1 h2
    injection h2 with h3
    refine ⟨?_, ?_, ?_⟩
    · intro k hk
      rw [← h3] at hk
      simp at hk
    · intro i j hi hj _
      rw [← h3] at hi
      simp at hi
    · intro i j hi hj _ _
      rw [← h3] at hi
      simp at hi
  | some img =>
    cases img with
    | gray2d g =>
      have hsnd := congrArg Prod.snd h
      rw [detect_gray_err hoi] at hsnd
      simp at hsnd
    | color px =>
      by_cases hc : Img3.chans px ≠ 3 ∧ Img3.chans px ≠ 4
      · have hsnd := congrArg Prod.snd h
        rw [detect_badchan_err hoi hc] at hsnd
        simp at hsnd
      · have hout : out = detectCore px t a hint := detect_out_eq_core hoi h
        subst hout
        have hlen := detectCore_length px t a hint
        have hbox : ∀ (k : Nat) (hk : k < (detectCore px t a hint).length)
            (hk' : k < (sortedKeptBoxes px t a).length),
            ((detectCore px t a hint).get ⟨k, hk⟩).bbox =
              (sortedKeptBoxes px t a).get ⟨k, hk'⟩ := by
          intro k hk hk'
          have hb := detectCore_get?_bbox px t a hint k
          rw [List.get?_eq_get hk, List.get?_eq_get hk'] at hb
          simpa using hb
        refine ⟨?_, ?_, ?_⟩
        · intro k hk
          have hk' : k < (sortedKeptBoxes px t a).length := hlen ▸ hk
          have hidx := detectCore_get?_index px t a hint k hk'
          rw [List.get?_eq_get hk] at hidx
          simpa using hidx
        · intro i j hi hj hij
          have hi' : i < (sortedKeptBoxes px t a).length := hlen ▸ hi
          have hj' : j < (sortedKeptBoxes px t a).length := hlen ▸ hj
          have hrel := List.Sorted.rel_get_of_lt (sortedKeptBoxes_sorted px t a)
            (show (⟨i, hi'⟩ : Fin _) < ⟨j, hj'⟩ from hij)
          unfold keyR sortKey at hrel
          dsimp only [] at hrel
          rw [hbox i hi hi', hbox j hj hj']
          omega
        · intro i j hi hj hbucket hx
          by_contra hij
          push_neg at hij
          have hi' : i < (sortedKeptBoxes px t a).length := hlen ▸ hi
          have hj' : j < (sortedKeptBoxes px t a).length := hlen ▸ hj
          rw [hbox i hi hi', hbox j hj hj'] at hbucket hx
          rcases Nat.eq_or_lt_of_le hij with heq | hlt
          · subst heq
            exact Nat.lt_irrefl _ hx
          · have hrel := List.Sorted.rel_get_of_lt (sortedKeptBoxes_sorted px t a)
              (show (⟨j, hj'⟩ : Fin _) < ⟨i, hi'⟩ from hlt)
            unfold keyR sortKey at hrel
            dsimp only [] at hrel
            omega

/-- Detection on the concrete 45x45 alpha-mode sheet yields exactly one
sprite with bbox (20, 20, 5, 5) (the 7x7 blob after net-one-pixel
morphological shrinkage and border suppression), labeled "front". -/
lemma detect_big_snd : (detectSprites stBig 10 1 none).2 = .ok [sBig] := by
  with_unfolding_all rfl

lemma detect_big_pair :
    detectSprites stBig 10 1 none = ((detectSprites stBig 10 1 none).1, .ok [sBig]) :=
  Prod.ext_iff.mpr ⟨rfl, detect_big_snd⟩

/-- C6 witness: the reading-order theorem applied to the concrete detection
on the 45x45 sheet. -/
theorem C6_witness : ([sBig].get ⟨0, by decide⟩).index = 0 :=
  (C6_reading_order stBig 10 1 none (detectSprites stBig 10 1 none).1 [sBig]
    detect_big_pair).1 0 (by decide)

/-! ## Mask shape and containment (C3) -/

lemma mask_map_rect {α : Type} {xs : List (List α)} {h w : Nat} (g : α → Bool)
    (hl : xs.length = h) (hr : ∀ row ∈ xs, row.length = w) :
    MaskRect (xs.map (fun row => row.map g)) h w := by
  constructor
  · simpa using hl
  · intro row hrow
    rw [List.mem_map] at hrow
    obtain ⟨r, hm, rfl⟩ := hrow
    simpa using hr r hm

lemma cvt_rect {px : Img3} {h w : Nat} (hl : px.length = h)
    (hr : ∀ row ∈ px, row.length = w) :
    (cvtColorBGR2GRAY px).length = h ∧ ∀ row ∈ cvtColorBGR2GRAY px, row.length = w := by
  constructor
  · simpa [cvtColorBGR2GRAY] using hl
  · intro row hrow
    unfold cvtColorBGR2GRAY at hrow
    rw [List.mem_map] at hrow
    obtain ⟨r, hm, rfl⟩ := hrow
    simpa using hr r hm

lemma rawMaskOf_rect {px : Img3} {h w t : Nat} (hpx : Rect3 px h w) :
    MaskRect (rawMaskOf px t) h w := by
  obtain ⟨hl, hr⟩ := hpx
  obtain ⟨hcl, hcr⟩ := cvt_rect hl hr
  unfold rawMaskOf
  split
  · unfold alphaMask
    exact mask_map_rect _ hl hr
  · split
    · unfold threshMaskLight
      exact mask_map_rect _ hcl hcr
    · unfold threshMaskDark
      exact mask_map_rect _ hcl hcr

lemma mapGrid_rect {m : Mask} {h w : Nat} (f : Nat → Nat → Bool)
    (hm : MaskRect m h w) : MaskRect (mapGrid f m) h w := by
  obtain ⟨hl, hr⟩ := hm
  constructor
  · simp [mapGrid, hl]
  · intro row hrow
    unfold mapGrid at hrow
    rw [List.mem_map] at hrow
    obtain ⟨r, hrmem, rfl⟩ := hrow
    rw [List.mem_range] at hrmem
    simp only [List.length_map, List.length_range]
    exact hr _ (getD_mem [] hrmem)

lemma cleanupMask_rect {m : Mask} {h w : Nat} (hm : MaskRect m h w) :
    MaskRect (cleanupMask m) h w := by
  unfold cleanupMask erode1 dilate1
  exact mapGrid_rect _ (mapGrid_rect _ (mapGrid_rect _ (mapGrid_rect _ (mapGrid_rect _ hm))))

lemma cleanedMask_rect {px : Img3} {h w t : Nat} (hpx : Rect3 px h w) :
    MaskRect (cleanedMask px t) h w := by
  unfold cleanedMask zeroBorder
  exact mapGrid_rect _ (cleanupMask_rect (rawMaskOf_rect hpx))

lemma cellsOf_bounds {m : Mask} {p : Cell} (hp : p ∈ cellsOf m) :
    p.1 < m.length ∧ p.2 < (m.getD p.1 []).length := by
  unfold cellsOf at hp
  rw [List.mem_flatten] at hp
  obtain ⟨blk, hblk, hpblk⟩ := hp
  rw [List.mem_map] at hblk
  obtain ⟨r, hrmem, rfl⟩ := hblk
  rw [List.mem_map] at hpblk
  obtain ⟨c, hcmem, rfl⟩ := hpblk
  rw [List.mem_filter] at hcmem
  constructor
  · simpa using List.mem_range.1 hrmem
  · simpa using List.mem_range.1 hcmem.1

lemma cells_lt {m : Mask} {h w : Nat} {p : Cell} (hrect : MaskRect m h w)
    (hp : p ∈ cellsOf m) : p.1 < h ∧ p.2 < w := by
  obtain ⟨h1, h2⟩ := cellsOf_bounds hp
  obtain ⟨hl, hr⟩ := hrect
  have hw := hr _ (getD_mem ([] : List Bool) h1)
  omega

lemma grow_acc_subset : ∀ (fuel : Nat) (acc rem : List Cell),
    acc ⊆ (grow fuel acc rem).1 := by
  intro fuel
  induction fuel with
  | zero => intro acc rem q hq; exact hq
  | succ fuel ih =>
    intro acc rem q hq
    rw [grow]
    split
    · exact hq
    · exact ih _ _ (List.mem_append_left _ hq)

lemma grow_subset : ∀ (fuel : Nat) (acc rem : List Cell) (q : Cell),
    q ∈ (grow fuel acc rem).1 → q ∈ acc ∨ q ∈ rem := by
  intro fuel
  induction fuel with
  | zero => intro acc rem q hq; exact .inl hq
  | succ fuel ih =>
    intro acc rem q hq
    rw [grow] at hq
    split at hq
    · exact .inl hq
    · rcases ih _ _ _ hq with hcase | hcase
      · rcases List.mem_append.1 hcase with h' | h'
        · exact .inl h'
        · exact .inr (List.mem_filter.1 h').1
      · exact .inr (List.mem_filter.1 hcase).1

lemma grow_rem_subset : ∀ (fuel : Nat) (acc rem : List Cell),
    (grow fuel acc rem).2 ⊆ rem := by
  intro fuel
  induction fuel with
  | zero => intro acc rem q hq; exact hq
  | succ fuel ih =>
    intro acc rem q hq
    rw [grow] at hq
    split at hq
    · exact hq
    · exact (List.mem_filter.1 (ih _ _ hq)).1

lemma compsAux_subset : ∀ (fuel : Nat) (cells comp : List Cell),
    comp ∈ compsAux fuel cells → ∀ q ∈ comp, q ∈ cells := by
  intro fuel
  induction fuel with
  | zero => intro cells comp hcomp; simp [compsAux] at hcomp
  | succ fuel ih =>
    intro cells comp hcomp q hq
    cases cells with
    | nil => simp [compsAux] at hcomp
    | cons p rest =>
      rw [compsAux] at hcomp
      rcases List.mem_cons.1 hcomp with rfl | htail
      · rcases grow_subset _ _ _ q hq with hcase | hcase
        · simp only [List.mem_singleton] at hcase
          rw [hcase]
          exact List.mem_cons_self p rest
        · exact List.mem_cons_of_mem _ hcase
      · exact List.mem_cons_of_mem _ (grow_rem_subset _ _ _ (ih _ _ htail q hq))

lemma compsAux_ne_nil : ∀ (fuel : Nat) (cells comp : List Cell),
    comp ∈ compsAux fuel cells → comp ≠ [] := by
  intro fuel
  induction fuel with
  | zero => intro cells comp hcomp; simp [compsAux] at hcomp
  | succ fuel ih =>
    intro cells comp hcomp
    cases cells with
    | nil => simp [compsAux] at hcomp
    | cons p rest =>
      rw [compsAux] at hcomp
      rcases List.mem_cons.1 hcomp with rfl | htail
      · intro hnil
        have hp : p ∈ (grow rest.length [p] rest).1 :=
          grow_acc_subset _ _ _ (List.mem_singleton_self p)
        rw [hnil] at hp
        simp at hp
      · exact ih _ _ htail

lemma bboxOfComp_contained : ∀ (comp : List Cell), comp ≠ [] →
    ∀ (h w : Nat), (∀ q ∈ comp, q.1 < h ∧ q.2 < w) →
    (bboxOfComp comp).1 + (bboxOfComp comp).2.2.1 ≤ w ∧
    (bboxOfComp comp).2.1 + (bboxOfComp comp).2.2.2 ≤ h := by
  intro comp hne h w hq
  cases comp with
  | nil => exact absurd rfl hne
  | cons p ps =>
    have hx1 : ((p :: ps).map Prod.snd).foldr max p.2 < w := by
      rcases foldr_max_mem p.2 ((p :: ps).map Prod.snd) with heq | hmem
      · rw [heq]
        exact (hq p (List.mem_cons_self p ps)).2
      · rw [List.mem_map] at hmem
        obtain ⟨q, hqm, hq2⟩ := hmem
        rw [← hq2]
        exact (hq q hqm).2
    have hy1 : ((p :: ps).map Prod.fst).foldr max p.1 < h := by
      rcases foldr_max_mem p.1 ((p :: ps).map Prod.fst) with heq | hmem
      · rw [heq]
        exact (hq p (List.mem_cons_self p ps)).1
      · rw [List.mem_map] at hmem
        obtain ⟨q, hqm, hq1⟩ := hmem
        rw [← hq1]
        exact (hq q hqm).1
    have hx0 : ((p :: ps).map Prod.snd).foldr min p.2 ≤
        ((p :: ps).map Prod.snd).foldr max p.2 :=
      le_trans (foldr_min_le p.2 _) (le_foldr_max p.2 _)
    have hy0 : ((p :: ps).map Prod.fst).foldr min p.1 ≤
        ((p :: ps).map Prod.fst).foldr max p.1 :=
      le_trans (foldr_min_le p.1 _) (le_foldr_max p.1 _)
    simp only [bboxOfComp]
    omega

lemma keptBoxes_contained {m : Mask} {h w min_area : Nat} {b : Nat × Nat × Nat × Nat}
    (hrect : MaskRect m h w) (hb : b ∈ keptBoxes m min_area) :
    b.1 + b.2.2.1 ≤ w ∧ b.2.1 + b.2.2.2 ≤ h := by
  unfold keptBoxes at hb
  have hb' := (List.mem_filter.1 hb).1
  rw [List.mem_map] at hb'
  obtain ⟨comp, hcomp, rfl⟩ := hb'
  unfold components at hcomp
  exact bboxOfComp_contained comp (compsAux_ne_nil _ _ _ hcomp) h w
    (fun q hq => cells_lt hrect (compsAux_subset _ _ _ hcomp q hq))

lemma sortedKeptBoxes_mem {px : Img3} {t a : Nat} {b : Nat × Nat × Nat × Nat}
    (hb : b ∈ sortedKeptBoxes px t a) : b ∈ keptBoxes (cleanedMask px t) a := by
  unfold sortedKeptBoxes at hb
  exact ((List.perm_insertionSort keyR _).mem_iff).1 hb

lemma mkSpritesAux_bbox_mem (px : Img3) :
    ∀ (bs : List (Nat × Nat × Nat × Nat)) (i : Nat) (s : Sprite),
    s ∈ mkSpritesAux px i bs → s.bbox ∈ bs := by
  intro bs
  induction bs with
  | nil => intro i s hs; simp [mkSpritesAux] at hs
  | cons b bt ih =>
    intro i s hs
    rw [mkSpritesAux] at hs
    rcases List.mem_cons.1 hs with rfl | htail
    · exact List.mem_cons_self _ _
    · exact List.mem_cons_of_mem _ (ih (i + 1) s htail)

lemma setViewsAux_bbox_mem : ∀ (vs : List String) (l : List Sprite) (s' : Sprite),
    s' ∈ setViewsAux vs l → ∃ s ∈ l, s'.bbox = s.bbox := by
  intro vs
  induction vs with
  | nil =>
    intro l s' hs'
    cases l with
    | nil => simp [setViewsAux] at hs'
    | cons a as => exact ⟨s', by simpa [setViewsAux] using hs', rfl⟩
  | cons v vt ih =>
    intro l s' hs'
    cases l with
    | nil => simp [setViewsAux] at hs'
    | cons a as =>
      rw [setViewsAux] at hs'
      rcases List.mem_cons.1 hs' with rfl | htail
      · exact ⟨a, List.mem_cons_self a as, rfl⟩
      · obtain ⟨s, hsmem, hbeq⟩ := ih as s' htail
        exact ⟨s, List.mem_cons_of_mem _ hsmem, hbeq⟩

lemma classifyViews_bbox_mem {l : List Sprite} {hint : Option String} {s' : Sprite}
    (hs' : s' ∈ classifyViews l hint) : ∃ s ∈ l, s'.bbox = s.bbox := by
  unfold classifyViews at hs'
  split at hs'
  · exact ⟨s', hs', rfl⟩
  · split at hs'
    · exact setViewsAux_bbox_mem _ _ _ hs'
    · rw [List.mem_map] at hs'
      obtain ⟨s, hsmem, rfl⟩ := hs'
      exact ⟨s, hsmem, rfl⟩

lemma detectCore_bbox_mem {px : Img3} {t a : Nat} {hint : Option String} {s : Sprite}
    (hs : s ∈ detectCore px t a hint) : s.bbox ∈ sortedKeptBoxes px t a := by
  unfold detectCore at hs
  split at hs
  · obtain ⟨s₀, hs₀mem, hbeq⟩ := classifyViews_bbox_mem hs
    rw [hbeq]
    exact mkSpritesAux_bbox_mem px _ _ _ hs₀mem
  · exact mkSpritesAux_bbox_mem px _ _ _ hs

/-- C3 (amended): every sprite returned by a successful `detect_sprites`
call has its bbox fully contained in the extent of the image the detection
ran on: `x + w <= image_width` and `y + h <= image_height` (with
`0 <= x, y` by the nonnegative coordinate representation).  The claimed
all-reachable-states invariant fails because `load_image` replaces the
image while preserving the sprites (see the counterexample). -/
theorem C3_detect_bbox_contained :
    ∀ (st : ExtractorState) (t a : Nat) (hint : Option String) (px : Img3)
      (h w : Nat) (st' : ExtractorState) (out : List Sprite),
    st.original_image = some (.color px) →
    px.length = h → (∀ row ∈ px, row.length = w) →
    detectSprites st t a hint = (st', .ok out) →
    ∀ s ∈ out, s.bbox.1 + s.bbox.2.2.1 ≤ w ∧ s.bbox.2.1 + s.bbox.2.2.2 ≤ h := by
  intro st t a hint px h w st' out him hl hr hdet s hs
  have hout : out = detectCore px t a hint := detect_out_eq_core him hdet
  subst hout
  exact keptBoxes_contained (cleanedMask_rect ⟨hl, hr⟩) (sortedKeptBoxes_mem (detectCore_bbox_mem hs))

/-- C3 (counterexample): the state reached by loading the 45x45 sheet,
detecting (one sprite with bbox (20, 20, 5, 5)), then loading a 10x10 image
is reachable, yet the sprite's bbox exceeds the current image's extent —
the claimed invariant over all reachable states is false. -/
theorem C3_counterexample : Reachable stBad ∧ ¬ StateContained stBad := by
  constructor
  · exact Reachable.load stDet "small.png" (some (.color smallImg))
      (Reachable.detect stBig 10 1 none
        (Reachable.load initialState "big.png" (some (.color bigImg)) Reachable.init))
  · intro hsc
    have hm : sBig ∈ stBad.sprites := by
      have h2 : stDet.sprites = [sBig] :=
        detect_post_sprites rfl detect_big_pair
      have h1 : stBad.sprites = stDet.sprites := rfl
      rw [h1, h2]
      exact List.mem_cons_self _ _
    exact absurd (hsc sBig hm) (by decide)

/-- C3 witness: the amended containment applied to the concrete detection
on the 45x45 sheet. -/
theorem C3_witness :
    sBig.bbox.1 + sBig.bbox.2.2.1 ≤ 45 ∧ sBig.bbox.2.1 + sBig.bbox.2.2.2 ≤ 45 :=
  C3_detect_bbox_contained stBig 10 1 none bigImg 45 45
    (detectSprites stBig 10 1 none).1 [sBig] rfl (by decide) (by decide)
    detect_big_pair sBig (List.mem_cons_self _ _)

/-! ## Export lemmas (C8, C10) -/

lemma paste_length (canvas simg : Img3) (y0 x0 : Nat) :
    (paste canvas simg y0 x0).length = canvas.length := by
  simp [paste]

lemma paste_width (canvas simg : Img3) (y0 x0 : Nat) :
    Img3.width (paste canvas simg y0 x0) = Img3.width canvas := by
  cases canvas with
  | nil => rfl
  | cons c0 rest =>
    unfold paste Img3.width
    simp [List.range_succ_eq_map]

lemma mkCanvas_length (hgt wdt chans fill : Nat) :
    (mkCanvas hgt wdt chans fill).length = hgt := by
  simp [mkCanvas]

lemma mkCanvas_width {hgt : Nat} (wdt chans fill : Nat) (hpos : 0 < hgt) :
    Img3.width (mkCanvas hgt wdt chans fill) = wdt := by
  cases hgt with
  | zero => omega
  | succ n => simp [mkCanvas, Img3.width, List.replicate_succ]

lemma spriteCanvas_dims {mean2 : Option (Option ℚ)} {pad : Nat} {uni : Bool}
    {tw th : Nat} {s : Sprite} {canvas : Img3}
    (hc : spriteCanvas mean2 pad uni tw th s = .ok canvas) :
    canvas.length = canvasH pad uni th s ∧
    (0 < canvasH pad uni th s → Img3.width canvas = canvasW pad uni tw s) := by
  unfold spriteCanvas at hc
  split at hc
  · injection hc with hc'
    subst hc'
    exact ⟨mkCanvas_length _ _ _ _, fun hpos => mkCanvas_width _ _ _ hpos⟩
  · cases mean2 with
    | none => simp at hc
    | some m =>
      injection hc with hc'
      subst hc'
      exact ⟨mkCanvas_length _ _ _ _, fun hpos => mkCanvas_width _ _ _ hpos⟩

lemma processSprite_uniform_dims {mean2 : Option (Option ℚ)} {pad : Nat}
    {tw th : Nat} {s : Sprite} {img : Img3}
    (hp : processSprite mean2 pad true tw th s = .ok img) (hth : 0 < th) :
    img.length = th ∧ Img3.width img = tw := by
  unfold processSprite at hp
  rw [if_pos (Or.inr rfl)] at hp
  cases hc : spriteCanvas mean2 pad true tw th s with
  | error err =>
    rw [hc] at hp
    simp at hp
  | ok canvas =>
    rw [hc] at hp
    simp only [] at hp
    split at hp
    · injection hp with hp'
      subst hp'
      obtain ⟨hclen, hcw⟩ := spriteCanvas_dims hc
      have hH : canvasH pad true th s = th := by simp [canvasH]
      have hW : canvasW pad true tw s = tw := by simp [canvasW]
      constructor
      · rw [paste_length, hclen, hH]
      · rw [paste_width, hcw (by omega), hW]
    · simp at hp

lemma exportList_mem_process {mean2 : Option (Option ℚ)} {dir pfx fmt : String}
    {uv : Bool} {pad : Nat} {uni : Bool} {tw th : Nat} :
    ∀ (l : List Sprite) (out : List ExportEntry),
    exportList mean2 dir pfx fmt uv pad uni tw th l = .ok out →
    ∀ e ∈ out, ∃ s ∈ l, processSprite mean2 pad uni tw th s = .ok e.img := by
  intro l
  induction l with
  | nil =>
    intro out hout e he
    rw [exportList] at hout
    injection hout with hout'
    rw [← hout'] at he
    simp at he
  | cons s ss ih =>
    intro out hout e he
    rw [exportList] at hout
    cases hps : processSprite mean2 pad uni tw th s with
    | error err =>
      rw [hps] at hout
      simp at hout
    | ok img =>
      rw [hps] at hout
      cases hrest : exportList mean2 dir pfx fmt uv pad uni tw th ss with
      | error err =>
        rw [hrest] at hout
        simp at hout
      | ok rest =>
        rw [hrest] at hout
        simp only [] at hout
        injection hout with hout'
        rw [← hout'] at he
        rcases List.mem_cons.1 he with rfl | htail
        · exact ⟨s, List.mem_cons_self _ _, hps⟩
        · obtain ⟨s', hs', hps'⟩ := ih rest hrest e htail
          exact ⟨s', List.mem_cons_of_mem _ hs', hps'⟩

/-- C8: with `uniform_size` and a non-empty sprite set (of positive-height
bboxes, as every detected sprite has), every exported image has dimensions
`(max_w + 2*padding, max_h + 2*padding)`, maxima of the bbox sizes over
the whole set, computed once before the loop. -/
theorem C8_uniform_export_dims :
    ∀ (st : ExtractorState) (dir pfx fmt : String) (uv : Bool) (pad : Nat)
      (out : List ExportEntry),
    exportSprites st dir pfx fmt uv pad true = .ok out →
    st.sprites ≠ [] →
    (∀ s ∈ st.sprites, 0 < s.bbox.2.2.2) →
    ∀ e ∈ out, e.img.length = maxBoxH st + 2 * pad ∧
      Img3.width e.img = maxBoxW st + 2 * pad := by
  intro st dir pfx fmt uv pad out hexp hne hpos e he
  unfold exportSprites at hexp
  rw [if_pos ⟨rfl, hne⟩, if_pos ⟨rfl, hne⟩] at hexp
  obtain ⟨s, hsmem, hps⟩ := exportList_mem_process _ _ hexp e he
  have hth : 0 < maxBoxH st + 2 * pad := by
    obtain ⟨s0, hs0⟩ := List.exists_mem_of_ne_nil _ hne
    have hle : s0.bbox.2.2.2 ≤ (st.sprites.map (fun s => s.bbox.2.2.2)).foldr max 0 :=
      mem_le_foldr_max 0 (List.mem_map_of_mem (fun s => s.bbox.2.2.2) hs0)
    have hp0 := hpos s0 hs0
    unfold maxBoxH
    omega
  exact processSprite_uniform_dims hps hth

/-- C8 witness: the uniform-size dimensions theorem applied to a concrete
one-sprite export with padding 0. -/
theorem C8_witness :
    (⟨"out/spr_front.png", onePix⟩ : ExportEntry).img.length = maxBoxH stExp + 2 * 0 ∧
    Img3.width (⟨"out/spr_front.png", onePix⟩ : ExportEntry).img = maxBoxW stExp + 2 * 0 :=
  C8_uniform_export_dims stExp "out" "spr" "png" true 0
    [⟨"out/spr_front.png", onePix⟩] (by rfl) (by decide) (by decide)
    ⟨"out/spr_front.png", onePix⟩ (List.mem_cons_self _ _)

/-! ## Filename collision and overwrite (C10) -/

lemma exportList_spec {mean2 : Option (Option ℚ)} {dir pfx fmt : String}
    {uv : Bool} {pad : Nat} {uni : Bool} {tw th : Nat} :
    ∀ (l : List Sprite) (out : List ExportEntry),
    exportList mean2 dir pfx fmt uv pad uni tw th l = .ok out →
    out.length = l.length ∧
    ∀ k, (out.get? k).map ExportEntry.path =
      (l.get? k).map (fun s => dir ++ "/" ++ spriteFilename pfx fmt uv s) := by
  intro l
  induction l with
  | nil =>
    intro out hout
    rw [exportList] at hout
    injection hout with hout'
    rw [← hout']
    exact ⟨rfl, fun k => rfl⟩
  | cons s ss ih =>
    intro out hout
    rw [exportList] at hout
    cases hps : processSprite mean2 pad uni tw th s with
    | error err =>
      rw [hps] at hout
      simp at hout
    | ok img =>
      rw [hps] at hout
      cases hrest : exportList mean2 dir pfx fmt uv pad uni tw th ss with
      | error err =>
        rw [hrest] at hout
        simp at hout
      | ok rest =>
        rw [hrest] at hout
        simp only [] at hout
        injection hout with hout'
        rw [← hout']
        obtain ⟨hlen, hget⟩ := ih rest hrest
        constructor
        · simpa using hlen
        · intro k
          cases k with
          | zero => rfl
          | succ k => simpa using hget k

lemma spriteFilename_eq_of_view {pfx fmt : String} {s u : Sprite}
    (hv : s.view_type = u.view_type) (hu : s.view_type ≠ "unknown") :
    spriteFilename pfx fmt true s = spriteFilename pfx fmt true u := by
  unfold spriteFilename
  rw [if_pos ⟨rfl, hu⟩, if_pos ⟨rfl, hv ▸ hu⟩, hv]

lemma lwFold_no_match : ∀ (l : List ExportEntry) (init : Option Img3) (p : String),
    (∀ e ∈ l, e.path ≠ p) → lwFold init l p = init := by
  intro l
  induction l with
  | nil => intro init p _; rfl
  | cons e es ih =>
    intro init p hno
    unfold lwFold
    rw [List.foldl_cons]
    have hne : e.path ≠ p := hno e (List.mem_cons_self _ _)
    rw [if_neg hne]
    exact ih init p (fun e' he' => hno e' (List.mem_cons_of_mem _ he'))

lemma lwFold_last : ∀ (l : List ExportEntry) (init : Option Img3) (p : String)
    (j : Nat) (hj : j < l.length), (l.get ⟨j, hj⟩).path = p →
    (∀ k (hk : k < l.length), j < k → (l.get ⟨k, hk⟩).path ≠ p) →
    lwFold init l p = some ((l.get ⟨j, hj⟩).img) := by
  intro l
  induction l with
  | nil => intro init p j hj; simp at hj
  | cons e es ih =>
    intro init p j hj hpj hafter
    unfold lwFold
    rw [List.foldl_cons]
    cases j with
    | zero =>
      simp only [List.get] at hpj
      rw [if_pos hpj]
      have hno : ∀ e' ∈ es, e'.path ≠ p := by
        intro e' he'
        obtain ⟨⟨k, hk⟩, hek⟩ := List.mem_iff_get.1 he'
        have := hafter (k + 1) (by simpa using Nat.succ_lt_succ hk) (Nat.succ_pos k)
        rw [List.get_cons_succ] at this
        rw [← hek]
        exact this
      exact lwFold_no_match es _ p hno
    | succ j' =>
      have hj' : j' < es.length := by simpa using hj
      have hpj' : (es.get ⟨j', hj'⟩).path = p := by
        have hcast : (e :: es).get ⟨j' + 1, hj⟩ = es.get ⟨j', hj'⟩ := List.get_cons_succ
        rw [← hcast]
        exact hpj
      have hafter' : ∀ k (hk : k < es.length), j' < k → (es.get ⟨k, hk⟩).path ≠ p := by
        intro k hk hjk
        have := hafter (k + 1) (by simpa using Nat.succ_lt_succ hk) (Nat.succ_lt_succ hjk)
        rw [List.get_cons_succ] at this
        exact this
      have hrec := ih (if e.path = p then some e.img else init) p j' hj' hpj' hafter'
      unfold lwFold at hrec
      rw [hrec, List.get_cons_succ]

/-- C10: with `use_view_names`, the filename depends only on `view_type`
for classified sprites; two sprites sharing the same non-"unknown" label
produce duplicate entries in the returned path list (same path at both
positions), and the file finally stored at that path is the later sprite's
image — the later write overwrites the earlier one. -/
theorem C10_view_name_collision :
    ∀ (st : ExtractorState) (dir pfx fmt : String) (pad : Nat) (uni : Bool)
      (out : List ExportEntry) (i j : Nat)
      (hi : i < st.sprites.length) (hj : j < st.sprites.length),
    exportSprites st dir pfx fmt true pad uni = .ok out →
    i < j →
    (st.sprites.get ⟨i, hi⟩).view_type = (st.sprites.get ⟨j, hj⟩).view_type →
    (st.sprites.get ⟨i, hi⟩).view_type ≠ "unknown" →
    ∃ (hi' : i < out.length) (hj' : j < out.length),
      (out.get ⟨i, hi'⟩).path = (out.get ⟨j, hj'⟩).path ∧
      ((∀ k (hk : k < out.length), j < k → (out.get ⟨k, hk⟩).path ≠ (out.get ⟨j, hj'⟩).path) →
        lastWrite out ((out.get ⟨j, hj'⟩).path) = some ((out.get ⟨j, hj'⟩).img)) := by
  intro st dir pfx fmt pad uni out i j hi hj hexp hij hview huk
  unfold exportSprites at hexp
  obtain ⟨hlen, hget⟩ := exportList_spec _ _ hexp
  have hi' : i < out.length := by omega
  have hj' : j < out.length := by omega
  refine ⟨hi', hj', ?_, ?_⟩
  · have hgi := hget i
    have hgj := hget j
    rw [List.get?_eq_get hi', List.get?_eq_get hi] at hgi
    rw [List.get?_eq_get hj', List.get?_eq_get hj] at hgj
    simp only [Option.map_some'] at hgi hgj
    injection hgi with hgi'
    injection hgj with hgj'
    rw [hgi', hgj', spriteFilename_eq_of_view hview huk]
  · intro hafter
    exact lwFold_last out none _ j hj' rfl hafter

/-- C10 witness: exporting two sprites both labeled "left" writes the same
path twice; the final file content is the second sprite's image. -/
theorem C10_witness :
    lastWrite [(⟨"out/spr_left.png", onePix⟩ : ExportEntry), ⟨"out/spr_left.png", onePix⟩]
      (([(⟨"out/spr_left.png", onePix⟩ : ExportEntry),
          ⟨"out/spr_left.png", onePix⟩].get ⟨1, by decide⟩).path) =
      some (([(⟨"out/spr_left.png", onePix⟩ : ExportEntry),
          ⟨"out/spr_left.png", onePix⟩].get ⟨1, by decide⟩).img) := by
  obtain ⟨hi', hj', hpath, hover⟩ := C10_view_name_collision stDup "out" "spr" "png" 0 false
    [⟨"out/spr_left.png", onePix⟩, ⟨"out/spr_left.png", onePix⟩] 0 1
    (by decide) (by decide) (by rfl) (by decide) (by rfl) (by decide)
  refine hover ?_
  intro k hk h1k
  have hk2 : k < 2 := by simpa using hk
  exact absurd h1k (by omega)

end SpriteExt
